import Mathlib

/-!
Verification of the motif-distribution peak-detection library (`pf_lib1.py`)
against its natural-language specification.

The numeric values flowing through the pipeline are modelled exactly, as
rationals (`ℚ`): the raw counts are numbers, bucket sums, means and sample
variances of rationals are rational.  The only irrational quantity used by
the code is the sample standard deviation `σ = √variance`, which appears
solely inside comparisons of the shape `x > μ + 1.5σ` / `x < μ - 1.5σ` /
`x ≥ μ + 1.5σ`.  Those comparisons are embedded by the exact equivalent
rational comparisons obtained by squaring (for `σ ≥ 0`):
  `x > μ + 1.5σ  ↔  μ < x ∧ (9/4)·v < (x-μ)²`   where `v = σ²`.
Lemmas `gt_mean_iff_real`, `lt_mean_iff_real`, `ge_mean_iff_real` below
prove this equivalence against the real-number reading, so the decidable
predicates used throughout are faithful to the source's semantics.
-/

/-- `statistics.mean` on a list of exact numbers: sum divided by length.
(The Python call raises on an empty list; the pipeline functions below
guard every call site, mirroring where the source can raise.) -/
def listMean (xs : List ℚ) : ℚ := xs.sum / xs.length

/-- Python `max(xs)` for a nonempty list (the sole call site guards
nonemptiness via the preceding standard-deviation check). -/
def listMax : List ℚ → ℚ
  | [] => 0
  | x :: xs => xs.foldl max x

/-- Sample variance `Σ (x-μ)² / (n-1)`, the square of what
`statistics.stdev` returns.  `statistics.stdev` raises for fewer than two
data points; call sites guard for that. -/
def sampleVariance (xs : List ℚ) : ℚ :=
  (xs.map (fun x => (x - listMean xs) ^ 2)).sum / ((xs.length : ℚ) - 1)

/-- `bucket_reduction(lst, n)` from the source: successive `n`-sized chunks
`lst[i:i+n]` for `i in range(0, len(lst), n)`. -/
def bucket_reduction (lst : List ℚ) (n : ℕ) : List (List ℚ) :=
  (List.range ((lst.length + n - 1) / n)).map (fun i => (lst.drop (i * n)).take n)

/-- `bucket_smooth(lst, n)` from the source: rolling windows `lst[i:i+n]`
for `i in range(0, len(lst) - n, 1)`. -/
def bucket_smooth (lst : List ℚ) (n : ℕ) : List (List ℚ) :=
  (List.range (lst.length - n)).map (fun i => (lst.drop i).take n)

/-- `_reduce_data_for_peak_detection(raw_row, reduce_size, smooth_size)`:
sum each chunk, then take the mean of each rolling window. -/
def _reduce_data_for_peak_detection (raw_row : List ℚ)
    (reduce_size smooth_size : ℕ) : List ℚ :=
  let bucketed_row := (bucket_reduction raw_row reduce_size).map List.sum
  (bucket_smooth bucketed_row smooth_size).map listMean

/-- Reference definition of the reduce step, written from the spec's words:
partition into consecutive non-overlapping chunks of `reduce_size` elements
(last chunk may be shorter) and replace each chunk by its sum, giving `B`;
then for each index in `[0, len(B) - smooth_size)` output the arithmetic
mean of the width-`smooth_size` window of `B` starting there. -/
def reduce_spec (raw_row : List ℚ) (reduce_size smooth_size : ℕ) : List ℚ :=
  let B : List ℚ := (List.range ((raw_row.length + reduce_size - 1) / reduce_size)).map
    (fun k => ((raw_row.drop (reduce_size * k)).take reduce_size).sum)
  (List.range (B.length - smooth_size)).map
    (fun k => ((B.drop k).take smooth_size).sum / (smooth_size : ℚ))

/-- Decidable form of `x > μ + 1.5·√v` (for `v ≥ 0`), by squaring. -/
def gt_mean_plus_15stdev (mu v x : ℚ) : Bool :=
  decide (mu < x) && decide ((9 / 4) * v < (x - mu) ^ 2)

/-- Decidable form of `x < μ - 1.5·√v` (for `v ≥ 0`), by squaring. -/
def lt_mean_minus_15stdev (mu v x : ℚ) : Bool :=
  decide (x < mu) && decide ((9 / 4) * v < (mu - x) ^ 2)

/-- Decidable form of `x ≥ μ + 1.5·√v` (for `v ≥ 0`), by squaring; this is
the height filter `scipy.signal.find_peaks` applies for a scalar `height`
argument. -/
def ge_mean_plus_15stdev (mu v x : ℚ) : Bool :=
  decide (mu ≤ x) && decide ((9 / 4) * v ≤ (x - mu) ^ 2)

/-- The per-element signal level of `_determine_scans`: `+1` above the
`μ + 1.5σ` band, `-1` below the `μ - 1.5σ` band, `0` inside. -/
def signal_level (mu v x : ℚ) : ℤ :=
  if gt_mean_plus_15stdev mu v x then 1
  else if lt_mean_minus_15stdev mu v x then -1
  else 0

/-- `itertools.groupby`-based run-length encoding, as used on the signal
array: `[0,0,1,1,1,0] ↦ [(0,2),(1,3),(0,1)]`. -/
def rle : List ℤ → List (ℤ × ℕ)
  | [] => []
  | x :: xs =>
    match rle xs with
    | [] => [(x, 1)]
    | (y, n) :: rest => if x = y then (x, n + 1) :: rest else (x, 1) :: (y, n) :: rest

/-- The loop body of `_determine_scans`: starting from `(False, False)`,
set the peak flag on a run `(1, count)` with `count > 5` and the valley
flag on a run `(-1, count)` with `count > 5` (`scan_threshold = 5`). -/
def _determine_scans_core (reduced_row : List ℚ) : Bool × Bool :=
  let mean_y := listMean reduced_row
  let v := sampleVariance reduced_row
  let signals := reduced_row.map (signal_level mean_y v)
  let grouped_signal_counts := rle signals
  grouped_signal_counts.foldl
    (fun acc p =>
      (if p.1 = 1 ∧ 5 < p.2 then true else acc.1,
       if p.1 = -1 ∧ 5 < p.2 then true else acc.2))
    (false, false)

/-- `_determine_scans(reduced_row)`.  `statistics.mean` raises on an empty
list and `statistics.stdev` raises on fewer than two points; both are
surfaced as errors here, mirroring the Python exceptions. -/
def _determine_scans (reduced_row : List ℚ) : Except String (Bool × Bool) :=
  if reduced_row.length = 0 then
    .error "mean requires at least one data point"
  else if reduced_row.length < 2 then
    .error "stdev requires at least two data points"
  else
    .ok (_determine_scans_core reduced_row)

/-! ### The constrained local-maximum search

Modelled from the spec: `scipy.signal.find_peaks` is an external numeric
primitive (spec section 4.3 and the design note in section 9); its code is
not part of this repository, so it is reimplemented here following the
spec's description: candidate local maxima, filtered by height, then
minimum horizontal distance (highest peak wins, ties keep the
first-encountered lowest index), then prominence (height above the higher
of the two bounding valleys), then width (number of samples above
half-prominence).  The height threshold enters only through comparisons
`y[i] ≥ h`, so the search takes the height filter as a Boolean predicate;
every call site passes the decidable encoding of its threshold. -/

/-- Indices that are strict local maxima of `y`. -/
def localMaxima (y : List ℚ) : List ℕ :=
  (List.range y.length).filter (fun i =>
    decide (0 < i) && decide (i + 1 < y.length) &&
    decide (y.getD (i - 1) 0 < y.getD i 0) && decide (y.getD (i + 1) 0 < y.getD i 0))

/-- The highest-valued candidate index (ties keep the earliest listed). -/
def peakArgmax (y : List ℚ) : List ℕ → Option ℕ
  | [] => none
  | i :: rest =>
    match peakArgmax y rest with
    | none => some i
    | some j => if y.getD i 0 < y.getD j 0 then some j else some i

/-- Greedy distance enforcement: repeatedly keep the highest remaining
candidate and discard all others strictly closer than `dist`. -/
def selectLoop (y : List ℚ) (dist : ℕ) : ℕ → List ℕ → List ℕ
  | 0, _ => []
  | fuel + 1, cands =>
    match peakArgmax y cands with
    | none => []
    | some j =>
      j :: selectLoop y dist fuel
        (cands.filter (fun i => decide (i ≠ j) && decide (dist ≤ max i j - min i j)))

/-- Minimum-distance selection, returning the kept candidates in their
original (ascending) order. -/
def selectByDistance (y : List ℚ) (dist : ℕ) (cands : List ℕ) : List ℕ :=
  let kept := selectLoop y dist cands.length cands
  cands.filter (fun i => kept.contains i)

/-- Walk left from index `j-1` while the values do not exceed the peak
value `pv`, tracking the running minimum (the left bounding valley). -/
def scanLeftMin (y : List ℚ) (pv : ℚ) : ℕ → ℚ → ℚ
  | 0, acc => acc
  | j + 1, acc =>
    let v := y.getD j 0
    if pv < v then acc else scanLeftMin y pv j (min acc v)

/-- Walk right from index `j` while the values do not exceed the peak
value `pv`, tracking the running minimum (the right bounding valley). -/
def scanRightMin (y : List ℚ) (pv : ℚ) : ℕ → ℕ → ℚ → ℚ
  | 0, _, acc => acc
  | fuel + 1, j, acc =>
    if j < y.length then
      let v := y.getD j 0
      if pv < v then acc else scanRightMin y pv fuel (j + 1) (min acc v)
    else acc

/-- Prominence of the peak at index `i`: its height above the higher of
its two bounding valleys. -/
def prominence (y : List ℚ) (i : ℕ) : ℚ :=
  let pv := y.getD i 0
  pv - max (scanLeftMin y pv i pv) (scanRightMin y pv (y.length - (i + 1)) (i + 1) pv)

/-- Number of contiguous samples strictly above `h` just left of index `j`. -/
def countAboveLeft (y : List ℚ) (h : ℚ) : ℕ → ℕ
  | 0 => 0
  | j + 1 => if h < y.getD j 0 then countAboveLeft y h j + 1 else 0

/-- Number of contiguous samples strictly above `h` from index `j` rightwards. -/
def countAboveRight (y : List ℚ) (h : ℚ) : ℕ → ℕ → ℕ
  | 0, _ => 0
  | fuel + 1, j =>
    if j < y.length then
      if h < y.getD j 0 then countAboveRight y h fuel (j + 1) + 1 else 0
    else 0

/-- Width of the peak at index `i`: the number of samples above
half-prominence in the contiguous run containing the peak. -/
def widthAt (y : List ℚ) (i : ℕ) : ℕ :=
  let h := y.getD i 0 - prominence y i / 2
  countAboveLeft y h i + countAboveRight y h (y.length - (i + 1)) (i + 1) + 1

/-- Modelled from the spec: the constrained local-maximum search of
`scipy.signal.find_peaks` with a scalar `height` threshold (taken as the
predicate `hpred`), minimum `distance`, minimum `prominence` and minimum
`width`.  Returns the accepted indices in ascending order together with
the per-peak (height, prominence, width) properties. -/
def find_peaks (y : List ℚ) (hpred : ℚ → Bool) (dist : ℕ)
    (promReq widthReq : ℚ) : List ℕ × List (ℚ × ℚ × ℕ) :=
  let cands := (localMaxima y).filter (fun i => hpred (y.getD i 0))
  let kept := selectByDistance y dist cands
  let withProm := kept.filter (fun i => decide (promReq ≤ prominence y i))
  let final := withProm.filter (fun i => decide (widthReq ≤ (widthAt y i : ℚ)))
  (final, final.map (fun i => (y.getD i 0, prominence y i, widthAt y i)))

/-! ### Detector, classifier and output pipeline -/

/-- The tuple returned by `find_peaks_and_or_valleys`. -/
structure DetectResult where
  reduced_row : List ℚ
  peaks : List ℕ
  valleys : List ℕ
  peak_properties : List (ℚ × ℚ × ℕ)
  valley_properties : List (ℚ × ℚ × ℕ)
  deriving DecidableEq

/-- The type of the constrained search primitive, abstracted so that the
detector can be stated for an arbitrary search (showing, e.g., that a
skipped search is never invoked). -/
def SearchFun : Type :=
  List ℚ → (ℚ → Bool) → ℕ → ℚ → ℚ → List ℕ × List (ℚ × ℚ × ℕ)

/-- The body of `find_peaks_and_or_valleys` after `_determine_scans`
succeeded: compute `ymax`, `mean`, the (squared) standard deviation, and
run the search `fp` on the signal if `peak_scan`, and on the inverted
signal `ymax - y` with threshold `(ymax - mean) + 1.5σ` if `valley_scan`
(`distance = 20`, `prominence = 4`, `width = 3`). -/
def detect_core (fp : SearchFun) (reduced_row : List ℚ)
    (peak_scan valley_scan : Bool) : DetectResult :=
  let ymax := listMax reduced_row
  let mean_y := listMean reduced_row
  let v := sampleVariance reduced_row
  let pres := if peak_scan then
      fp reduced_row (ge_mean_plus_15stdev mean_y v) 20 4 3
    else ([], [])
  let vres := if valley_scan then
      fp (reduced_row.map (fun x => ymax - x))
        (ge_mean_plus_15stdev (ymax - mean_y) v) 20 4 3
    else ([], [])
  ⟨reduced_row, pres.1, vres.1, pres.2, vres.2⟩

/-- `find_peaks_and_or_valleys(raw_row, reduce_size, smooth_size)` with the
search primitive abstracted. -/
def find_peaks_and_or_valleys_gen (fp : SearchFun) (raw_row : List ℚ)
    (reduce_size smooth_size : ℕ) : Except String DetectResult :=
  let reduced_row := _reduce_data_for_peak_detection raw_row reduce_size smooth_size
  match _determine_scans reduced_row with
  | .error e => .error e
  | .ok (peak_scan, valley_scan) => .ok (detect_core fp reduced_row peak_scan valley_scan)

/-- `find_peaks_and_or_valleys` of the source, with the search primitive
instantiated to the constrained local-maximum search. -/
def find_peaks_and_or_valleys (raw_row : List ℚ) (reduce_size smooth_size : ℕ) :
    Except String DetectResult :=
  find_peaks_and_or_valleys_gen find_peaks raw_row reduce_size smooth_size

/-- The category table of `categorize_msd_file_into_tf_regulation`
(lines 136-145 of the source). -/
def categorize_counts (peak_count valley_count : ℕ) : String :=
  if peak_count = 0 ∧ valley_count = 0 then "inactive"
  else if peak_count = 1 ∧ valley_count = 0 then "active"
  else if peak_count = 0 ∧ valley_count = 1 then "repressed"
  else if (peak_count = 2 ∨ peak_count = 4) ∧ valley_count = 0 then "offset"
  else "uncategorized"

/-- The coordinate transform of the source:
`new_loc = (old_loc + int(smooth_size/2)) * reduce_size - 1500`. -/
def position_map (old_loc reduce_size smooth_size : ℕ) : ℤ :=
  ((old_loc : ℤ) + ((smooth_size / 2 : ℕ) : ℤ)) * (reduce_size : ℤ) - 1500

/-- Identifier cleanup: `ids[i].replace('HO_','').replace('_HUMAN.H10MO','')`. -/
def clean_id (s : String) : String :=
  (s.replace "HO_" "").replace "_HUMAN.H10MO" ""

/-- One serialized Regulation Record, before formatting. -/
structure RegRecord where
  peak_count : ℕ
  valley_count : ℕ
  id : String
  sra : String
  category : String
  peaks_bp : List ℤ
  valleys_bp : List ℤ
  deriving DecidableEq

/-- The per-row record construction of
`categorize_msd_file_into_tf_regulation` (reduce_size = smooth_size = 10):
counts, cleaned identifier, source-sample tag, category, and the
position-mapped peak and valley locations. -/
def record_of (sra id : String) (res : DetectResult) : RegRecord :=
  { peak_count := res.peaks.length,
    valley_count := res.valleys.length,
    id := clean_id id,
    sra := sra,
    category := categorize_counts res.peaks.length res.valleys.length,
    peaks_bp := res.peaks.map (fun old_loc => position_map old_loc 10 10),
    valleys_bp := res.valleys.map (fun old_loc => position_map old_loc 10 10) }

/-- Per-row processing of the categorization loop: detection (errors
propagate, as the Python exceptions do) followed by record construction. -/
def process_row (sra id : String) (raw_row : List ℚ) : Except String RegRecord :=
  (find_peaks_and_or_valleys raw_row 10 10).map (record_of sra id)

/-- The line formatting of the source: the five leading fields, then the
`for i in range(4)` loop emitting up to four peak positions (empty fields
otherwise), then one valley position field, then a line break. -/
def format_line (rec : RegRecord) : String :=
  let base := toString rec.peak_count ++ "," ++ toString rec.valley_count ++ ","
    ++ rec.id ++ "," ++ rec.sra ++ "," ++ rec.category
  let withPeaks := (List.range 4).foldl
    (fun acc i =>
      if i < rec.peaks_bp.length then acc ++ "," ++ toString (rec.peaks_bp.getD i 0)
      else acc ++ ",")
    base
  let withValley := if 0 < rec.valleys_bp.length then
      withPeaks ++ "," ++ toString (rec.valleys_bp.getD 0 0)
    else withPeaks ++ ","
  withValley ++ "\n"

/-- The row loop of `categorize_msd_file_into_tf_regulation` over
(identifier, raw row) pairs: each successful row appends one line; a raised
error aborts the loop (the remaining rows are not processed), mirroring the
uncaught Python exception.  Returns the lines written before the abort and
the error, if any. -/
def categorize_rows (sra : String) : List (String × List ℚ) → List String × Option String
  | [] => ([], none)
  | (id, raw_row) :: rest =>
    match process_row sra id raw_row with
    | .error e => ([], some e)
    | .ok rec =>
      let tail := categorize_rows sra rest
      (format_line rec :: tail.1, tail.2)

/-- The whole run on parallel identifier and raw-row lists (the file
reading and the `sra` tag extraction from the basename are external
collaborators). -/
def categorize_run (sra : String) (ids : List String) (raw_data : List (List ℚ)) :
    List String × Option String :=
  categorize_rows sra (ids.zip raw_data)

/-- Comma-separated joining, written from the spec's words ("serializes
one per line as comma-separated fields in the fixed order"). -/
def joinComma : List String → String
  | [] => ""
  | [x] => x
  | x :: xs => x ++ "," ++ joinComma xs

/-- Pad a field list on the right with empty fields up to `n` entries. -/
def padFields (n : ℕ) (xs : List String) : List String :=
  xs ++ List.replicate (n - xs.length) ""

/-- The fixed-order field list of one output record, written from the
spec's words: peak count, valley count, cleaned identifier, sample tag,
category, exactly four peak-position fields holding at most the first four
peak positions, and exactly one valley-position field holding at most the
first valley position. -/
def line_fields_spec (rec : RegRecord) : List String :=
  [toString rec.peak_count, toString rec.valley_count, rec.id, rec.sra, rec.category]
    ++ padFields 4 ((rec.peaks_bp.take 4).map toString)
    ++ padFields 1 ((rec.valleys_bp.take 1).map toString)

/-! ### Faithfulness of the squared standard-deviation comparisons -/

/-- Squaring equivalence for strict threshold comparisons: for `s ≥ 0`,
`b + s < x` iff `b < x` and `s² < (x-b)²`. -/
theorem sq_cmp_lt (b s x : ℝ) (hs : 0 ≤ s) : b + s < x ↔ b < x ∧ s ^ 2 < (x - b) ^ 2 := by
  constructor
  · intro h
    constructor
    · linarith
    · nlinarith
  · rintro ⟨h1, h2⟩
    nlinarith [sq_nonneg (s - (x - b)), sq_nonneg (s + (x - b))]

/-- Squaring equivalence for non-strict threshold comparisons. -/
theorem sq_cmp_le (b s x : ℝ) (hs : 0 ≤ s) : b + s ≤ x ↔ b ≤ x ∧ s ^ 2 ≤ (x - b) ^ 2 := by
  constructor
  · intro h
    constructor
    · linarith
    · nlinarith
  · rintro ⟨h1, h2⟩
    nlinarith [sq_nonneg (s - (x - b)), sq_nonneg (s + (x - b))]

/-- The sample variance is never negative. -/
theorem sampleVariance_nonneg (xs : List ℚ) : 0 ≤ sampleVariance xs := by
  unfold sampleVariance
  rcases xs with _ | ⟨a, l⟩
  · simp
  · apply div_nonneg
    · apply List.sum_nonneg
      intro x hx
      rcases List.mem_map.mp hx with ⟨y, _, rfl⟩
      positivity
    · have h1 : (1 : ℚ) ≤ ((a :: l).length : ℚ) := by
        exact_mod_cast Nat.succ_le_of_lt (List.length_pos.mpr (by simp))
      linarith

/-- The decidable predicate `gt_mean_plus_15stdev` is exactly the source's
comparison `x > mean + 1.5 * stdev` read over the reals, where
`stdev = √variance`. -/
theorem gt_mean_iff_real (mu v x : ℚ) (hv : 0 ≤ v) :
    gt_mean_plus_15stdev mu v x = true ↔ (mu : ℝ) + 3 / 2 * Real.sqrt v < x := by
  have hs : (0 : ℝ) ≤ 3 / 2 * Real.sqrt v := by positivity
  rw [sq_cmp_lt _ _ _ hs]
  have hsq : (3 / 2 * Real.sqrt v) ^ 2 = 9 / 4 * (v : ℝ) := by
    rw [mul_pow, Real.sq_sqrt (by exact_mod_cast hv)]
    ring
  rw [hsq]
  simp only [gt_mean_plus_15stdev, Bool.and_eq_true, decide_eq_true_eq]
  constructor
  · rintro ⟨h1, h2⟩
    refine ⟨by exact_mod_cast h1, ?_⟩
    have : ((9 / 4 * v : ℚ) : ℝ) < (((x - mu) ^ 2 : ℚ) : ℝ) := by exact_mod_cast h2
    push_cast at this
    convert this using 2 <;> push_cast <;> ring
  · rintro ⟨h1, h2⟩
    refine ⟨by exact_mod_cast h1, ?_⟩
    have : ((9 / 4 * v : ℚ) : ℝ) < (((x - mu) ^ 2 : ℚ) : ℝ) := by
      push_cast
      convert h2 using 2 <;> push_cast <;> ring
    exact_mod_cast this

/-- The decidable predicate `lt_mean_minus_15stdev` is exactly the source's
comparison `x < mean - 1.5 * stdev` read over the reals. -/
theorem lt_mean_iff_real (mu v x : ℚ) (hv : 0 ≤ v) :
    lt_mean_minus_15stdev mu v x = true ↔ (x : ℝ) < mu - 3 / 2 * Real.sqrt v := by
  have hs : (0 : ℝ) ≤ 3 / 2 * Real.sqrt v := by positivity
  have key : ((x : ℝ) < mu - 3 / 2 * Real.sqrt v) ↔
      ((x : ℝ) + 3 / 2 * Real.sqrt v < mu) := by constructor <;> intro h <;> linarith
  rw [key, sq_cmp_lt _ _ _ hs]
  have hsq : (3 / 2 * Real.sqrt v) ^ 2 = 9 / 4 * (v : ℝ) := by
    rw [mul_pow, Real.sq_sqrt (by exact_mod_cast hv)]
    ring
  rw [hsq]
  simp only [lt_mean_minus_15stdev, Bool.and_eq_true, decide_eq_true_eq]
  constructor
  · rintro ⟨h1, h2⟩
    refine ⟨by exact_mod_cast h1, ?_⟩
    have : ((9 / 4 * v : ℚ) : ℝ) < (((mu - x) ^ 2 : ℚ) : ℝ) := by exact_mod_cast h2
    push_cast at this
    convert this using 2 <;> push_cast <;> ring
  · rintro ⟨h1, h2⟩
    refine ⟨by exact_mod_cast h1, ?_⟩
    have : ((9 / 4 * v : ℚ) : ℝ) < (((mu - x) ^ 2 : ℚ) : ℝ) := by
      push_cast
      convert h2 using 2 <;> push_cast <;> ring
    exact_mod_cast this

/-- The decidable predicate `ge_mean_plus_15stdev` is exactly the height
filter `y ≥ height` with `height = mean + 1.5 * stdev` read over the reals. -/
theorem ge_mean_iff_real (mu v x : ℚ) (hv : 0 ≤ v) :
    ge_mean_plus_15stdev mu v x = true ↔ (mu : ℝ) + 3 / 2 * Real.sqrt v ≤ x := by
  have hs : (0 : ℝ) ≤ 3 / 2 * Real.sqrt v := by positivity
  rw [sq_cmp_le _ _ _ hs]
  have hsq : (3 / 2 * Real.sqrt v) ^ 2 = 9 / 4 * (v : ℝ) := by
    rw [mul_pow, Real.sq_sqrt (by exact_mod_cast hv)]
    ring
  rw [hsq]
  simp only [ge_mean_plus_15stdev, Bool.and_eq_true, decide_eq_true_eq]
  constructor
  · rintro ⟨h1, h2⟩
    refine ⟨by exact_mod_cast h1, ?_⟩
    have : ((9 / 4 * v : ℚ) : ℝ) ≤ (((x - mu) ^ 2 : ℚ) : ℝ) := by exact_mod_cast h2
    push_cast at this
    convert this using 2 <;> push_cast <;> ring
  · rintro ⟨h1, h2⟩
    refine ⟨by exact_mod_cast h1, ?_⟩
    have : ((9 / 4 * v : ℚ) : ℝ) ≤ (((x - mu) ^ 2 : ℚ) : ℝ) := by
      push_cast
      convert h2 using 2 <;> push_cast <;> ring
    exact_mod_cast this

/-! ### Claims about the Signal Reducer -/

/-- C6: For every raw row, the reduce step equals the reference definition:
partition the row into consecutive non-overlapping chunks of `reduce_size`
elements (last chunk possibly shorter), replace each chunk by its sum to
get a bucketed sequence `B`, then for each index in
`[0, len(B) - smooth_size)` output the arithmetic mean of the
width-`smooth_size` window of `B` starting there. -/
theorem claim_C6 (raw_row : List ℚ) (reduce_size smooth_size : ℕ) :
    _reduce_data_for_peak_detection raw_row reduce_size smooth_size
      = reduce_spec raw_row reduce_size smooth_size := by
  simp only [_reduce_data_for_peak_detection, reduce_spec, bucket_reduction, bucket_smooth,
    List.map_map, List.length_map, List.length_range]
  have hB : List.map (List.sum ∘ fun i => (raw_row.drop (i * reduce_size)).take reduce_size)
      (List.range ((raw_row.length + reduce_size - 1) / reduce_size))
      = List.map (fun k => ((raw_row.drop (reduce_size * k)).take reduce_size).sum)
        (List.range ((raw_row.length + reduce_size - 1) / reduce_size)) := by
    apply List.map_congr_left
    intro k _
    simp [Nat.mul_comm]
  rw [hB]
  apply List.map_congr_left
  intro k hk
  rw [List.mem_range] at hk
  have hlen : (((List.map (fun k => ((raw_row.drop (reduce_size * k)).take reduce_size).sum)
      (List.range ((raw_row.length + reduce_size - 1) / reduce_size))).drop k).take
        smooth_size).length = smooth_size := by
    simp only [List.length_take, List.length_drop, List.length_map, List.length_range]
    omega
  simp [listMean, hlen]

/-- The length of the reduced row is the number of buckets
(`⌈len/reduce_size⌉`) minus `smooth_size`, as a truncated natural
subtraction. -/
theorem reduce_length (raw_row : List ℚ) (reduce_size smooth_size : ℕ) :
    (_reduce_data_for_peak_detection raw_row reduce_size smooth_size).length
      = (raw_row.length + reduce_size - 1) / reduce_size - smooth_size := by
  simp [_reduce_data_for_peak_detection, bucket_smooth, bucket_reduction]

/-- C2 as frozen is false on the code: a 21-element raw row has length
greater than `reduce_size + smooth_size = 20`, yet the reduced output is
empty (length 0), while `floor(21/10) - 10 = -8`; the difference is 8,
not within ±1. -/
theorem claim_C2_counterexample :
    20 < (List.replicate 21 (1 : ℚ)).length ∧ 0 < 10 ∧
    ¬ ((((_reduce_data_for_peak_detection (List.replicate 21 (1 : ℚ)) 10 10).length : ℤ)
        - ((((List.replicate 21 (1 : ℚ)).length / 10 : ℕ) : ℤ) - 10)).natAbs ≤ 1) := by
  refine ⟨by decide, by decide, ?_⟩
  decide

/-- C2 amended: the precondition `len(raw_row) > reduce_size + smooth_size`
must be strengthened to `⌈len(raw_row)/reduce_size⌉ > smooth_size` (the
bucket count exceeding the smoothing width).  Under it the output length is
exactly `⌈len/reduce_size⌉ - smooth_size`, which is within ±1 of
`floor(len/reduce_size) - smooth_size`; the reduce step is deterministic;
and whenever the bucketed sequence `B` has `len(B) ≤ smooth_size` the
output is the empty sequence. -/
theorem claim_C2_amended (raw_row : List ℚ) (reduce_size smooth_size : ℕ)
    (hr : 0 < reduce_size) (hs : 0 < smooth_size) :
    (smooth_size < (raw_row.length + reduce_size - 1) / reduce_size →
      (_reduce_data_for_peak_detection raw_row reduce_size smooth_size).length
          = (raw_row.length + reduce_size - 1) / reduce_size - smooth_size ∧
      (((_reduce_data_for_peak_detection raw_row reduce_size smooth_size).length : ℤ)
          - (((raw_row.length / reduce_size : ℕ) : ℤ) - (smooth_size : ℤ))).natAbs ≤ 1) ∧
    (((bucket_reduction raw_row reduce_size).map List.sum).length ≤ smooth_size →
      _reduce_data_for_peak_detection raw_row reduce_size smooth_size = []) ∧
    (∀ raw2, raw2 = raw_row →
      _reduce_data_for_peak_detection raw2 reduce_size smooth_size
        = _reduce_data_for_peak_detection raw_row reduce_size smooth_size) := by
  refine ⟨?_, ?_, ?_⟩
  · intro h
    have hlen := reduce_length raw_row reduce_size smooth_size
    refine ⟨hlen, ?_⟩
    set L := raw_row.length with hL
    set C := (L + reduce_size - 1) / reduce_size with hC
    set F := L / reduce_size with hF
    have hFC : F ≤ C := Nat.div_le_div_right (by omega)
    have hCF : C ≤ F + 1 := by
      have h1 : L < (F + 1) * reduce_size :=
        (Nat.div_lt_iff_lt_mul hr).mp (Nat.lt_succ_self F)
      have h2 : (F + 2) * reduce_size = (F + 1) * reduce_size + reduce_size := by ring
      have h3 : L + reduce_size - 1 < (F + 2) * reduce_size := by omega
      have := (Nat.div_lt_iff_lt_mul hr).mpr h3
      omega
    have hsF : smooth_size ≤ F := by omega
    rw [hlen]
    omega
  · intro h
    simp only [_reduce_data_for_peak_detection, bucket_smooth, List.map_eq_nil_iff,
      List.range_eq_nil]
    simp only [List.length_map] at h ⊢
    omega
  · intro raw2 h2
    rw [h2]

/-- Witness for C2 (amended): a 120-element raw row with
`reduce_size = smooth_size = 10` has 12 buckets, so the reduced length is
`12 - 10 = 2`, and `floor(120/10) - 10 = 2` matches exactly. -/
theorem claim_C2_amended_witness :
    (_reduce_data_for_peak_detection (List.replicate 120 (1 : ℚ)) 10 10).length
        = ((List.replicate 120 (1 : ℚ)).length + 10 - 1) / 10 - 10 ∧
    (((_reduce_data_for_peak_detection (List.replicate 120 (1 : ℚ)) 10 10).length : ℤ)
        - ((((List.replicate 120 (1 : ℚ)).length / 10 : ℕ) : ℤ) - (10 : ℤ))).natAbs ≤ 1 :=
  (claim_C2_amended (List.replicate 120 (1 : ℚ)) 10 10 (by decide) (by decide)).1 (by decide)

/-! ### Claims about the Classifier -/

/-- C1: the emitted category is determined solely by the pair
(peak count, valley count): (0,0) gives inactive, (1,0) active,
(0,1) repressed, (2,0) and (4,0) offset, and every other combination
uncategorized. -/
theorem claim_C1 :
    (∀ sra id res, (record_of sra id res).category
        = categorize_counts (record_of sra id res).peak_count
            (record_of sra id res).valley_count) ∧
    categorize_counts 0 0 = "inactive" ∧
    categorize_counts 1 0 = "active" ∧
    categorize_counts 0 1 = "repressed" ∧
    categorize_counts 2 0 = "offset" ∧
    categorize_counts 4 0 = "offset" ∧
    (∀ p v : ℕ, ¬(p = 0 ∧ v = 0) → ¬(p = 1 ∧ v = 0) → ¬(p = 0 ∧ v = 1) →
      ¬((p = 2 ∨ p = 4) ∧ v = 0) → categorize_counts p v = "uncategorized") := by
  refine ⟨fun _ _ _ => rfl, rfl, rfl, rfl, rfl, rfl, ?_⟩
  intro p v h1 h2 h3 h4
  simp only [categorize_counts, if_neg h1, if_neg h2, if_neg h3, if_neg h4]

/-- Witness for C1: the combination (3,0) is not in the table and is
emitted as uncategorized. -/
theorem claim_C1_witness : categorize_counts 3 0 = "uncategorized" :=
  claim_C1.2.2.2.2.2.2 3 0 (by decide) (by decide) (by decide) (by decide)

/-- C3: the emitted original-coordinate positions are exactly
`(i + floor(smooth_size/2)) * reduce_size - 1500` applied to each detected
reduced-row index, with `reduce_size = smooth_size = 10` as configured; in
particular reduced index 5 maps to -1400. -/
theorem claim_C3 :
    (∀ sra id res, (record_of sra id res).peaks_bp
        = res.peaks.map (fun i : ℕ => ((i : ℤ) + ((10 / 2 : ℕ) : ℤ)) * 10 - 1500) ∧
      (record_of sra id res).valleys_bp
        = res.valleys.map (fun i : ℕ => ((i : ℤ) + ((10 / 2 : ℕ) : ℤ)) * 10 - 1500)) ∧
    position_map 5 10 10 = -1400 := by
  exact ⟨fun _ _ _ => ⟨rfl, rfl⟩, by decide⟩

/-! ### Claims about the Scan Decider -/

/-- The flag-setting loop of `_determine_scans` computes, from any starting
accumulator, the disjunction with an existence check over the runs. -/
theorem scan_foldl (l : List (ℤ × ℕ)) (a b : Bool) :
    l.foldl
      (fun acc p =>
        (if p.1 = 1 ∧ 5 < p.2 then true else acc.1,
         if p.1 = -1 ∧ 5 < p.2 then true else acc.2))
      (a, b)
    = (a || l.any (fun p => decide (p.1 = 1 ∧ 5 < p.2)),
       b || l.any (fun p => decide (p.1 = -1 ∧ 5 < p.2))) := by
  induction l generalizing a b with
  | nil => simp
  | cons p l ih =>
    rw [List.foldl_cons, ih]
    have e1 : (if p.1 = 1 ∧ 5 < p.2 then true else a) = (decide (p.1 = 1 ∧ 5 < p.2) || a) := by
      by_cases h : p.1 = 1 ∧ 5 < p.2 <;> simp [h]
    have e2 : (if p.1 = -1 ∧ 5 < p.2 then true else b) = (decide (p.1 = -1 ∧ 5 < p.2) || b) := by
      by_cases h : p.1 = -1 ∧ 5 < p.2 <;> simp [h]
    rw [e1, e2, List.any_cons, List.any_cons]
    simp only [Prod.mk.injEq]
    constructor <;> rw [Bool.or_assoc, Bool.or_left_comm]

/-- The mean of a constant list is that constant. -/
theorem listMean_replicate (n : ℕ) (c : ℚ) (h : n ≠ 0) :
    listMean (List.replicate n c) = c := by
  simp only [listMean, List.sum_replicate, List.length_replicate, nsmul_eq_mul]
  rw [mul_comm, mul_div_assoc, div_self (by exact_mod_cast h), mul_one]

/-- The sample variance of a constant list is zero. -/
theorem sampleVariance_replicate (n : ℕ) (c : ℚ) (h : n ≠ 0) :
    sampleVariance (List.replicate n c) = 0 := by
  simp only [sampleVariance, listMean_replicate n c h, List.map_replicate]
  simp

/-- Run-length encoding of a constant nonempty list is a single run. -/
theorem rle_replicate (x : ℤ) : ∀ n : ℕ, n ≠ 0 → rle (List.replicate n x) = [(x, n)]
  | 0, h => absurd rfl h
  | 1, _ => rfl
  | n + 2, _ => by
    have ih := rle_replicate x (n + 1) (Nat.succ_ne_zero n)
    rw [List.replicate_succ, rle, ih]
    simp

/-- A constant element classifies at signal level 0 against its own mean
with zero variance. -/
theorem signal_level_self (c : ℚ) : signal_level c 0 c = 0 := by
  simp [signal_level, gt_mean_plus_15stdev, lt_mean_minus_15stdev]

/-- C4: for every reduced row with at least 2 elements the scan decider
succeeds, and `scan_peaks` is true iff the run-length encoding of the
per-element levels contains a run of level +1 with length > 5 and
`scan_valleys` is true iff it contains a run of level -1 with length > 5;
a constant-valued row yields (false, false) without raising. -/
theorem claim_C4 (reduced_row : List ℚ) (h : 2 ≤ reduced_row.length) :
    _determine_scans reduced_row = .ok (_determine_scans_core reduced_row) ∧
    ((_determine_scans_core reduced_row).1 = true ↔
      ∃ p ∈ rle (reduced_row.map
          (signal_level (listMean reduced_row) (sampleVariance reduced_row))),
        p.1 = 1 ∧ 5 < p.2) ∧
    ((_determine_scans_core reduced_row).2 = true ↔
      ∃ p ∈ rle (reduced_row.map
          (signal_level (listMean reduced_row) (sampleVariance reduced_row))),
        p.1 = -1 ∧ 5 < p.2) ∧
    (∀ c : ℚ, reduced_row = List.replicate reduced_row.length c →
      _determine_scans_core reduced_row = (false, false)) := by
  refine ⟨?_, ?_, ?_, ?_⟩
  · rw [_determine_scans, if_neg (by omega), if_neg (by omega)]
  · rw [_determine_scans_core, scan_foldl]
    simp [List.any_eq_true]
  · rw [_determine_scans_core, scan_foldl]
    simp [List.any_eq_true]
  · intro c hc
    have hn : reduced_row.length ≠ 0 := by omega
    rw [_determine_scans_core]
    rw [hc, listMean_replicate _ _ hn, sampleVariance_replicate _ _ hn, List.map_replicate,
      signal_level_self, rle_replicate _ _ hn]
    simp

/-- Witness for C4: a constant two-element row returns (false, false). -/
theorem claim_C4_witness :
    _determine_scans_core (List.replicate 2 (5 : ℚ)) = (false, false) :=
  (claim_C4 (List.replicate 2 (5 : ℚ)) (by decide)).2.2.2 5 rfl

/-- Every run recorded by the run-length encoding counts at most the
number of occurrences of its level in the list. -/
theorem rle_count (l : List ℤ) : ∀ p ∈ rle l, p.2 ≤ l.count p.1 := by
  induction l with
  | nil => simp [rle]
  | cons x xs ih =>
    intro p hp
    rw [rle] at hp
    rcases hrle : rle xs with _ | ⟨⟨y, n⟩, rest⟩
    · rw [hrle] at hp
      simp only [List.mem_singleton] at hp
      subst hp
      simp [List.count_cons_self]
    · rw [hrle] at hp
      dsimp only at hp
      by_cases hxy : x = y
      · subst hxy
        rw [if_pos rfl] at hp
        rcases List.mem_cons.mp hp with heq | hmem
        · subst heq
          have hn : n ≤ xs.count x := by
            have := ih (x, n) (by rw [hrle]; exact List.mem_cons_self _ _)
            simpa using this
          simp only [List.count_cons_self]
          omega
        · have hle := ih p (by rw [hrle]; exact List.mem_cons_of_mem _ hmem)
          calc p.2 ≤ xs.count p.1 := hle
            _ ≤ (x :: xs).count p.1 := by
                rw [List.count_cons]
                exact Nat.le_add_right _ _
      · rw [if_neg hxy] at hp
        rcases List.mem_cons.mp hp with heq | hmem
        · subst heq
          simp [List.count_cons_self]
        · have hle := ih p (by rw [hrle]; exact hmem)
          calc p.2 ≤ xs.count p.1 := hle
            _ ≤ (x :: xs).count p.1 := by
                rw [List.count_cons]
                exact Nat.le_add_right _ _

/-- Counting a value among the images of a map is the length of the
matching filter. -/
theorem count_map_eq_length_filter (f : ℚ → ℤ) (l : List ℚ) (a : ℤ) :
    (l.map f).count a = (l.filter (fun x => decide (f x = a))).length := by
  induction l with
  | nil => rfl
  | cons x xs ih =>
    rw [List.map_cons, List.count_cons, ih, List.filter_cons]
    by_cases h : f x = a
    · simp [h]
    · simp [h]

/-- An element is at signal level +1 exactly when it strictly exceeds the
upper outlier threshold. -/
theorem signal_level_eq_one (mu v x : ℚ) :
    decide (signal_level mu v x = 1) = gt_mean_plus_15stdev mu v x := by
  by_cases h1 : gt_mean_plus_15stdev mu v x = true
  · simp [signal_level, h1]
  · have h1' : gt_mean_plus_15stdev mu v x = false := by simpa using h1
    by_cases h2 : lt_mean_minus_15stdev mu v x = true
    · simp [signal_level, h1', h2]
    · have h2' : lt_mean_minus_15stdev mu v x = false := by simpa using h2
      simp [signal_level, h1', h2']

/-- An element is at signal level -1 exactly when it lies strictly below
the lower outlier threshold. -/
theorem signal_level_eq_negone (mu v x : ℚ) :
    decide (signal_level mu v x = -1) = lt_mean_minus_15stdev mu v x := by
  by_cases h1 : gt_mean_plus_15stdev mu v x = true
  · have hmx : mu < x := by
      simp only [gt_mean_plus_15stdev, Bool.and_eq_true, decide_eq_true_eq] at h1
      exact h1.1
    have hlt : lt_mean_minus_15stdev mu v x = false := by
      rw [lt_mean_minus_15stdev]
      have hd : decide (x < mu) = false := by
        simp [not_lt.mpr (le_of_lt hmx)]
      rw [hd, Bool.false_and]
    simp [signal_level, h1, hlt]
  · have h1' : gt_mean_plus_15stdev mu v x = false := by simpa using h1
    by_cases h2 : lt_mean_minus_15stdev mu v x = true
    · simp [signal_level, h1', h2]
    · have h2' : lt_mean_minus_15stdev mu v x = false := by simpa using h2
      simp [signal_level, h1', h2']

/-- C10 (implicit): whenever the scan decider sets the peak flag, at least
6 elements strictly exceed the upper outlier threshold, and every such
element passes the exact height filter handed to the peak search; when it
sets the valley flag, at least 6 elements lie strictly below the lower
threshold, and each corresponds exactly to an inverted-signal element
passing the inverted search's height filter. -/
theorem claim_C10 (reduced_row : List ℚ) (h : 2 ≤ reduced_row.length) :
    ((_determine_scans_core reduced_row).1 = true →
      6 ≤ (reduced_row.filter
        (gt_mean_plus_15stdev (listMean reduced_row) (sampleVariance reduced_row))).length) ∧
    (∀ x : ℚ, gt_mean_plus_15stdev (listMean reduced_row) (sampleVariance reduced_row) x = true →
      ge_mean_plus_15stdev (listMean reduced_row) (sampleVariance reduced_row) x = true) ∧
    ((_determine_scans_core reduced_row).2 = true →
      6 ≤ (reduced_row.filter
        (lt_mean_minus_15stdev (listMean reduced_row) (sampleVariance reduced_row))).length) ∧
    (∀ x : ℚ, lt_mean_minus_15stdev (listMean reduced_row) (sampleVariance reduced_row) x = true →
      ge_mean_plus_15stdev (listMax reduced_row - listMean reduced_row)
        (sampleVariance reduced_row) (listMax reduced_row - x) = true) := by
  set mu := listMean reduced_row
  set v := sampleVariance reduced_row
  refine ⟨?_, ?_, ?_, ?_⟩
  · intro hflag
    rw [_determine_scans_core, scan_foldl] at hflag
    simp only [Bool.false_or, List.any_eq_true, decide_eq_true_eq] at hflag
    obtain ⟨p, hp, hp1, hp2⟩ := hflag
    have hcount := rle_count _ p hp
    rw [hp1] at hcount
    have hc : (reduced_row.map (signal_level mu v)).count 1
        = (reduced_row.filter (fun x => decide (signal_level mu v x = 1))).length :=
      count_map_eq_length_filter _ _ _
    have hfc : (reduced_row.filter (fun x => decide (signal_level mu v x = 1)))
        = (reduced_row.filter (gt_mean_plus_15stdev mu v)) := by
      apply List.filter_congr
      intro x _
      exact signal_level_eq_one mu v x
    rw [hc, hfc] at hcount
    omega
  · intro x hx
    simp only [gt_mean_plus_15stdev, Bool.and_eq_true, decide_eq_true_eq] at hx
    simp only [ge_mean_plus_15stdev, Bool.and_eq_true, decide_eq_true_eq]
    exact ⟨le_of_lt hx.1, le_of_lt hx.2⟩
  · intro hflag
    rw [_determine_scans_core, scan_foldl] at hflag
    simp only [Bool.false_or, List.any_eq_true, decide_eq_true_eq] at hflag
    obtain ⟨p, hp, hp1, hp2⟩ := hflag
    have hcount := rle_count _ p hp
    rw [hp1] at hcount
    have hc : (reduced_row.map (signal_level mu v)).count (-1)
        = (reduced_row.filter (fun x => decide (signal_level mu v x = -1))).length :=
      count_map_eq_length_filter _ _ _
    have hfc : (reduced_row.filter (fun x => decide (signal_level mu v x = -1)))
        = (reduced_row.filter (lt_mean_minus_15stdev mu v)) := by
      apply List.filter_congr
      intro x _
      exact signal_level_eq_negone mu v x
    rw [hc, hfc] at hcount
    omega
  · intro x hx
    simp only [lt_mean_minus_15stdev, Bool.and_eq_true, decide_eq_true_eq] at hx
    simp only [ge_mean_plus_15stdev, Bool.and_eq_true, decide_eq_true_eq]
    constructor
    · linarith [hx.1]
    · have : (listMax reduced_row - x - (listMax reduced_row - mu)) ^ 2 = (mu - x) ^ 2 := by
        ring
      rw [this]
      exact le_of_lt hx.2

/-- Witness for C10: a 21-element row (15 zeros then 6 ones) satisfies the
length precondition. -/
theorem claim_C10_witness :
    ((_determine_scans_core (List.replicate 15 (0 : ℚ) ++ List.replicate 6 1)).1 = true →
      6 ≤ ((List.replicate 15 (0 : ℚ) ++ List.replicate 6 1).filter
        (gt_mean_plus_15stdev (listMean (List.replicate 15 (0 : ℚ) ++ List.replicate 6 1))
          (sampleVariance (List.replicate 15 (0 : ℚ) ++ List.replicate 6 1)))).length) ∧
    (∀ x : ℚ, gt_mean_plus_15stdev (listMean (List.replicate 15 (0 : ℚ) ++ List.replicate 6 1))
        (sampleVariance (List.replicate 15 (0 : ℚ) ++ List.replicate 6 1)) x = true →
      ge_mean_plus_15stdev (listMean (List.replicate 15 (0 : ℚ) ++ List.replicate 6 1))
        (sampleVariance (List.replicate 15 (0 : ℚ) ++ List.replicate 6 1)) x = true) ∧
    ((_determine_scans_core (List.replicate 15 (0 : ℚ) ++ List.replicate 6 1)).2 = true →
      6 ≤ ((List.replicate 15 (0 : ℚ) ++ List.replicate 6 1).filter
        (lt_mean_minus_15stdev (listMean (List.replicate 15 (0 : ℚ) ++ List.replicate 6 1))
          (sampleVariance (List.replicate 15 (0 : ℚ) ++ List.replicate 6 1)))).length) ∧
    (∀ x : ℚ, lt_mean_minus_15stdev (listMean (List.replicate 15 (0 : ℚ) ++ List.replicate 6 1))
        (sampleVariance (List.replicate 15 (0 : ℚ) ++ List.replicate 6 1)) x = true →
      ge_mean_plus_15stdev
        (listMax (List.replicate 15 (0 : ℚ) ++ List.replicate 6 1)
          - listMean (List.replicate 15 (0 : ℚ) ++ List.replicate 6 1))
        (sampleVariance (List.replicate 15 (0 : ℚ) ++ List.replicate 6 1))
        (listMax (List.replicate 15 (0 : ℚ) ++ List.replicate 6 1) - x) = true) :=
  claim_C10 (List.replicate 15 (0 : ℚ) ++ List.replicate 6 1) (by decide)

/-! ### Claims about the Peak/Valley Detector -/

/-- C5: on any reduced row meeting the detector's precondition on which a
valley scan runs, the returned valley indices are exactly the result of
running the identical constrained search (distance 20, prominence 4,
width 3) on the inverted signal `y_max - y` with the height threshold
`(y_max - mean) + 1.5 * stdev`. -/
theorem claim_C5 (reduced_row : List ℚ) (peak_scan : Bool)
    (h : 2 ≤ reduced_row.length) :
    (detect_core find_peaks reduced_row peak_scan true).valleys
      = (find_peaks (reduced_row.map (fun x => listMax reduced_row - x))
          (ge_mean_plus_15stdev (listMax reduced_row - listMean reduced_row)
            (sampleVariance reduced_row)) 20 4 3).1 := by
  simp [detect_core]

/-- Witness for C5 at a concrete two-element row. -/
theorem claim_C5_witness :
    (detect_core find_peaks (List.replicate 2 (0 : ℚ)) false true).valleys
      = (find_peaks ((List.replicate 2 (0 : ℚ)).map
            (fun x => listMax (List.replicate 2 (0 : ℚ)) - x))
          (ge_mean_plus_15stdev
            (listMax (List.replicate 2 (0 : ℚ)) - listMean (List.replicate 2 (0 : ℚ)))
            (sampleVariance (List.replicate 2 (0 : ℚ)))) 20 4 3).1 :=
  claim_C5 (List.replicate 2 (0 : ℚ)) false (by decide)

/-- C7: with both scan flags false, detection returns empty peak and
valley sequences with empty properties for every search primitive `fp` --
in particular the constrained search is never invoked. -/
theorem claim_C7 (fp : SearchFun) (reduced_row : List ℚ)
    (h : 2 ≤ reduced_row.length) :
    detect_core fp reduced_row false false = ⟨reduced_row, [], [], [], []⟩ := by
  simp [detect_core]

/-- Witness for C7: even a search primitive that always reports a fake
peak is ignored when both flags are false. -/
theorem claim_C7_witness :
    detect_core (fun _ _ _ _ _ => ([42], [(0, 0, 0)])) (List.replicate 2 (0 : ℚ)) false false
      = ⟨List.replicate 2 (0 : ℚ), [], [], [], []⟩ :=
  claim_C7 (fun _ _ _ _ _ => ([42], [(0, 0, 0)])) (List.replicate 2 (0 : ℚ)) (by decide)

/-! ### Claims about error handling -/

set_option maxRecDepth 4000 in
/-- A row whose reduced form has at least 2 points is processed
successfully. -/
theorem process_row_ok_of_length (sra id : String) (raw_row : List ℚ)
    (h : 2 ≤ (_reduce_data_for_peak_detection raw_row 10 10).length) :
    (process_row sra id raw_row).toOption.isSome = true := by
  simp only [process_row, find_peaks_and_or_valleys, find_peaks_and_or_valleys_gen]
  rw [_determine_scans, if_neg (by omega), if_neg (by omega)]
  rfl

/-- Unfolding equation for the row loop on a leading row. -/
theorem categorize_rows_cons (sra id : String) (raw_row : List ℚ)
    (rest : List (String × List ℚ)) :
    categorize_rows sra ((id, raw_row) :: rest)
      = match process_row sra id raw_row with
        | .error e => ([], some e)
        | .ok rec =>
          ((format_line rec) :: (categorize_rows sra rest).1, (categorize_rows sra rest).2) :=
  rfl

set_option maxRecDepth 10000 in
/-- C8 as frozen is false on the code: on a dataset whose first row is too
short, the run produces no output lines at all and surfaces an error --
even though the second row on its own would be processed successfully.
The row is not skipped with a diagnostic; the whole run fails. -/
theorem claim_C8_counterexample :
    (categorize_run "S" ["a", "b"] [[(1 : ℚ)], List.replicate 120 0]).1 = [] ∧
    ((categorize_run "S" ["a", "b"] [[(1 : ℚ)], List.replicate 120 0]).2).isSome = true ∧
    (process_row "S" "b" (List.replicate 120 (0 : ℚ))).toOption.isSome = true :=
  ⟨by decide, by decide, process_row_ok_of_length "S" "b" (List.replicate 120 (0 : ℚ))
    (by decide)⟩

/-- C8 amended: a raw row that is too short (reduced row empty, or fewer
than 2 reduced points) makes the detection call fail with the statistics
error (there is no dedicated InsufficientDataError), and that failure
aborts the whole run at the offending row: no line is emitted for it or
for any later row, i.e. there is no per-row skip with a diagnostic. -/
theorem claim_C8_amended (sra id : String) (raw_row : List ℚ)
    (rest : List (String × List ℚ))
    (h : (_reduce_data_for_peak_detection raw_row 10 10).length < 2) :
    (categorize_rows sra ((id, raw_row) :: rest)).1 = [] ∧
    ((categorize_rows sra ((id, raw_row) :: rest)).2).isSome = true := by
  obtain ⟨e, he⟩ : ∃ e, process_row sra id raw_row = .error e := by
    simp only [process_row, find_peaks_and_or_valleys, find_peaks_and_or_valleys_gen]
    rw [_determine_scans]
    by_cases h0 : (_reduce_data_for_peak_detection raw_row 10 10).length = 0
    · rw [if_pos h0]
      exact ⟨_, rfl⟩
    · rw [if_neg h0, if_pos (by omega)]
      exact ⟨_, rfl⟩
  rw [categorize_rows_cons, he]
  exact ⟨rfl, rfl⟩

/-- Witness for C8 (amended) at the concrete failing dataset. -/
theorem claim_C8_amended_witness :
    (categorize_rows "S" [("a", [(1 : ℚ)]), ("b", List.replicate 120 0)]).1 = [] ∧
    ((categorize_rows "S" [("a", [(1 : ℚ)]), ("b", List.replicate 120 0)]).2).isSome = true :=
  claim_C8_amended "S" "a" [(1 : ℚ)] [("b", List.replicate 120 0)] (by decide)

/-! ### Claims about the output records -/

/-- The constrained search returns its accepted indices in strictly
ascending order. -/
theorem find_peaks_pairwise (y : List ℚ) (hpred : ℚ → Bool) (dist : ℕ)
    (promReq widthReq : ℚ) :
    ((find_peaks y hpred dist promReq widthReq).1).Pairwise (· < ·) := by
  have h0 : (List.range y.length).Pairwise (· < ·) := List.sorted_lt_range _
  have h1 : (localMaxima y).Pairwise (· < ·) := h0.filter _
  rw [find_peaks, selectByDistance]
  exact (((h1.filter _).filter _).filter _).filter _

/-- C9: each record is serialized as the comma-separated fields in fixed
order -- peak count, valley count, cleaned identifier, sample tag,
category, exactly four peak-position fields (at most the first four peak
positions, remaining fields empty), exactly one valley-position field --
terminated by a line break; the field list has exactly 10 entries; the
emitted peak positions are in ascending order; and every successfully
processed row contributes exactly one line. -/
theorem claim_C9 :
    (∀ rec : RegRecord, format_line rec = joinComma (line_fields_spec rec) ++ "\n") ∧
    (∀ rec : RegRecord, (line_fields_spec rec).length = 10) ∧
    (∀ sra id reduced_row peak_scan valley_scan,
      ((record_of sra id
          (detect_core find_peaks reduced_row peak_scan valley_scan)).peaks_bp).Pairwise
        (· < ·)) ∧
    (∀ sra pairs, (∀ pr ∈ pairs, 2 ≤ (_reduce_data_for_peak_detection pr.2 10 10).length) →
      (categorize_rows sra pairs).1.length = pairs.length ∧
      (categorize_rows sra pairs).2 = none) := by
  refine ⟨?_, ?_, ?_, ?_⟩
  · rintro ⟨pc, vc, idv, sra, cat, pbp, vbp⟩
    have hd2 : (",," : String).data = [',', ','] := rfl
    have hd1 : ("," : String).data = [','] := rfl
    rcases pbp with _ | ⟨a, _ | ⟨b, _ | ⟨c, _ | ⟨d, t⟩⟩⟩⟩ <;>
      rcases vbp with _ | ⟨v1, vt⟩ <;>
        simp [format_line, joinComma, line_fields_spec, padFields, List.range_succ,
          String.append_assoc] <;>
        (apply String.ext
         simp [String.data_append, hd2, hd1])
  · intro rec
    simp only [line_fields_spec, padFields, List.length_append, List.length_cons,
      List.length_nil, List.length_replicate, List.length_map, List.length_take]
    omega
  · intro sra id reduced_row peak_scan valley_scan
    have hmono : ∀ a b : ℕ, a < b → position_map a 10 10 < position_map b 10 10 := by
      intro a b hab
      have hab' : (a : ℤ) < (b : ℤ) := by exact_mod_cast hab
      simp only [position_map]
      omega
    cases peak_scan with
    | false =>
      simp [record_of, detect_core]
    | true =>
      have hp := find_peaks_pairwise reduced_row
        (ge_mean_plus_15stdev (listMean reduced_row) (sampleVariance reduced_row)) 20 4 3
      simp only [record_of, detect_core, if_true]
      exact hp.map _ hmono
  · intro sra pairs h
    induction pairs with
    | nil => exact ⟨rfl, rfl⟩
    | cons pr rest ih =>
      obtain ⟨idp, rawp⟩ := pr
      have hok : (process_row sra idp rawp).toOption.isSome = true :=
        process_row_ok_of_length sra idp rawp (h (idp, rawp) (List.mem_cons_self _ _))
      rcases hpr : process_row sra idp rawp with e | rec
      · rw [hpr] at hok
        simp [Except.toOption] at hok
      · have ihr := ih (fun pr hpr2 => h pr (List.mem_cons_of_mem _ hpr2))
        rw [categorize_rows_cons, hpr]
        simp only [List.length_cons]
        exact ⟨by rw [ihr.1], ihr.2⟩

set_option maxRecDepth 10000 in
/-- Witness for C9: a single sufficiently long row yields exactly one
output line and no error. -/
theorem claim_C9_witness :
    (categorize_rows "S" [("a", List.replicate 111 (0 : ℚ))]).1.length
        = [("a", List.replicate 111 (0 : ℚ))].length ∧
    (categorize_rows "S" [("a", List.replicate 111 (0 : ℚ))]).2 = none :=
  claim_C9.2.2.2 "S" [("a", List.replicate 111 (0 : ℚ))] (by decide)

/-- Reachability of the peak branch: on 15 zeros followed by 6 ones the
scan decider sets exactly the peak flag (mean 2/7, sample variance 3/14,
and the six ones form a level +1 run of length 6 > 5). -/
theorem scan_decider_fires_peaks :
    _determine_scans_core (List.replicate 15 (0 : ℚ) ++ List.replicate 6 1) = (true, false) := by
  have hmean : listMean (List.replicate 15 (0 : ℚ) ++ List.replicate 6 1) = 2 / 7 := by
    rw [listMean, List.sum_append, List.sum_replicate, List.sum_replicate]
    norm_num [nsmul_eq_mul, List.length_append, List.length_replicate]
  have hvar : sampleVariance (List.replicate 15 (0 : ℚ) ++ List.replicate 6 1) = 3 / 14 := by
    rw [sampleVariance, hmean, List.map_append, List.map_replicate, List.map_replicate,
      List.sum_append, List.sum_replicate, List.sum_replicate]
    norm_num [nsmul_eq_mul, List.length_append, List.length_replicate]
  have h0 : signal_level (2 / 7) (3 / 14) 0 = 0 := by
    rw [signal_level, gt_mean_plus_15stdev, lt_mean_minus_15stdev]
    norm_num
  have h1 : signal_level (2 / 7) (3 / 14) 1 = 1 := by
    rw [signal_level, gt_mean_plus_15stdev]
    norm_num
  rw [_determine_scans_core, hmean, hvar, List.map_append, List.map_replicate,
    List.map_replicate, h0, h1, scan_foldl]
  norm_num [rle, List.replicate]

/-- Reachability of the valley branch: on 15 ones followed by 6 zeros the
scan decider sets exactly the valley flag. -/
theorem scan_decider_fires_valleys :
    _determine_scans_core (List.replicate 15 (1 : ℚ) ++ List.replicate 6 0) = (false, true) := by
  have hmean : listMean (List.replicate 15 (1 : ℚ) ++ List.replicate 6 0) = 5 / 7 := by
    rw [listMean, List.sum_append, List.sum_replicate, List.sum_replicate]
    norm_num [nsmul_eq_mul, List.length_append, List.length_replicate]
  have hvar : sampleVariance (List.replicate 15 (1 : ℚ) ++ List.replicate 6 0) = 3 / 14 := by
    rw [sampleVariance, hmean, List.map_append, List.map_replicate, List.map_replicate,
      List.sum_append, List.sum_replicate, List.sum_replicate]
    norm_num [nsmul_eq_mul, List.length_append, List.length_replicate]
  have h1 : signal_level (5 / 7) (3 / 14) 1 = 0 := by
    rw [signal_level, gt_mean_plus_15stdev, lt_mean_minus_15stdev]
    norm_num
  have h0 : signal_level (5 / 7) (3 / 14) 0 = -1 := by
    rw [signal_level, gt_mean_plus_15stdev, lt_mean_minus_15stdev]
    norm_num
  rw [_determine_scans_core, hmean, hvar, List.map_append, List.map_replicate,
    List.map_replicate, h1, h0, scan_foldl]
  norm_num [rle, List.replicate]
